import Mathlib

/-!
Verification of the pagination helpers and gRPC transport caching of
`google/cloud/aiplatform_v1beta1/services` (endpoint_service and
pipeline_service).

The pagers (`ListEndpointsPager`, `ListTrainingPipelinesPager`) are
structurally identical: they differ only in the element type of the
response's item field.  We therefore embed one pager parameterised by the
item type `α` and instantiate it at `Endpoint` and `TrainingPipeline`.

The Python generator `pages` mutates `self._request` / `self._response` in
place; we embed it as explicit state passing over a `Pager` record, with a
fuel argument bounding how many loop iterations are unrolled (the loop may
genuinely diverge, see the termination claims).  The traversal is
instrumented with the list of requests passed to `method`, so that claims
about "the invoker is called with ..." and "the invoker is never called"
can be stated.
-/

/-- Modelled from the spec: `ListRequest { ...filter/query fields..., page_token: string }`.
The concrete request message types (`ListEndpointsRequest`,
`ListTrainingPipelinesRequest`) live in the generated `types` modules, which
are not part of the sources under verification; the spec fixes their shape as
opaque query fields plus a mutable `page_token` string.  We represent the
query fields by `parent`, `filter` and `page_size`. -/
structure ListRequest where
  parent : String
  filter : String
  page_size : Nat
  page_token : String
deriving DecidableEq, Repr

/-- Modelled from the spec: `ListResponse { items: ordered sequence of Item, next_page_token: string }`.
The item type varies per service (`endpoints` holds `Endpoint`s,
`training_pipelines` holds `TrainingPipeline`s), so it is a parameter. -/
structure ListResponse (α : Type) where
  items : List α
  next_page_token : String
deriving DecidableEq, Repr

/-- Modelled from the spec: the item type of `ListEndpointsResponse.endpoints`
(an opaque provider-defined message; only its identity matters here). -/
structure Endpoint where
  name : String
deriving DecidableEq, Repr

/-- Modelled from the spec: the item type of
`ListTrainingPipelinesResponse.training_pipelines`. -/
structure TrainingPipeline where
  display_name : String
deriving DecidableEq, Repr

abbrev ListEndpointsRequest := ListRequest

abbrev ListEndpointsResponse := ListResponse Endpoint

abbrev ListTrainingPipelinesRequest := ListRequest

abbrev ListTrainingPipelinesResponse := ListResponse TrainingPipeline

/-- The copy constructor call `endpoint_service.ListEndpointsRequest(request)`
in `ListEndpointsPager.__init__` (pagers.py line 62): a fresh message with the
same field values. -/
def copyRequest (r : ListRequest) : ListRequest :=
  { parent := r.parent, filter := r.filter,
    page_size := r.page_size, page_token := r.page_token }

/-- The mutable state of a pager: its `_request` and `_response` fields
(`_method` is passed explicitly to each operation). -/
structure Pager (α : Type) where
  request : ListRequest
  response : ListResponse α
deriving DecidableEq, Repr

abbrev ListEndpointsPager := Pager Endpoint

abbrev ListTrainingPipelinesPager := Pager TrainingPipeline

/-- The pager constructor (pagers.py lines 42-63): stores the method, a copy
of the request, and the initial response. -/
def mkPager {α : Type} (request : ListRequest) (response : ListResponse α) :
    Pager α :=
  { request := copyRequest request, response := response }

/-- One iteration of the `pages` loop body (pagers.py lines 72-73):
`self._request.page_token = self._response.next_page_token;
self._response = self._method(self._request)`. -/
def fetchNext {α : Type} (m : ListRequest → ListResponse α) (s : Pager α) :
    Pager α :=
  let req := { s.request with page_token := s.response.next_page_token }
  { request := req, response := m req }

/-- The pager state after `n` unconditional executions of the loop body. -/
def stateAt {α : Type} (m : ListRequest → ListResponse α) (s : Pager α) :
    Nat → Pager α
  | 0 => s
  | n + 1 => fetchNext m (stateAt m s n)

/-- Result of traversing the `pages` generator: the yielded pages, the
requests passed to `method` (in call order), and the final pager state. -/
structure RunResult (α : Type) where
  pages : List (ListResponse α)
  calls : List ListRequest
  final : Pager α
deriving DecidableEq, Repr

/-- The `while self._response.next_page_token:` loop of `pages`
(pagers.py lines 71-74), unrolled up to `fuel` iterations.  Each iteration
checks the retained response's token, mutates the request's `page_token`,
invokes `method` on the mutated request, replaces the retained response and
yields it. -/
def pagesRunLoop {α : Type} (m : ListRequest → ListResponse α) :
    Pager α → Nat → RunResult α
  | s, 0 => ⟨[], [], s⟩
  | s, fuel + 1 =>
    if s.response.next_page_token = "" then ⟨[], [], s⟩
    else
      let s' := fetchNext m s
      let r := pagesRunLoop m s' fuel
      ⟨s'.response :: r.pages, s'.request :: r.calls, r.final⟩

/-- The whole `pages` generator (pagers.py lines 68-74): first yields the
retained response, then runs the fetch loop. -/
def pagesRun {α : Type} (m : ListRequest → ListResponse α) (s : Pager α)
    (fuel : Nat) : RunResult α :=
  let r := pagesRunLoop m s fuel
  ⟨s.response :: r.pages, r.calls, r.final⟩

/-- The `for page in self.pages: yield from page.endpoints` flattening of
`__iter__` (pagers.py lines 76-78), applied to an already-produced page
list. -/
def iterConcat {α : Type} : List (ListResponse α) → List α
  | [] => []
  | p :: ps => p.items ++ iterConcat ps

/-- The `__iter__` method (pagers.py lines 76-78): traverses `pages` and
yields each page's items in order.  Returns the yielded items together with
the requests issued by the underlying `pages` traversal (it performs no
fetches of its own). -/
def iterRun {α : Type} (m : ListRequest → ListResponse α) (s : Pager α)
    (fuel : Nat) : List α × List ListRequest :=
  let r := pagesRun m s fuel
  (iterConcat r.pages, r.calls)

/-- The `__getattr__` forwarding (pagers.py lines 65-66):
`getattr(self._response, name)` — any attribute lookup that the pager's own
surface does not satisfy resolves against the currently retained response.
Attributes are modelled as field accessors on the response type. -/
def pagerGetattr {α β : Type} (s : Pager α) (f : ListResponse α → β) : β :=
  f s.response

theorem stateAt_succ {α : Type} (m : ListRequest → ListResponse α)
    (s : Pager α) (n : Nat) :
    stateAt m s (n + 1) = fetchNext m (stateAt m s n) := rfl

theorem stateAt_shift {α : Type} (m : ListRequest → ListResponse α)
    (s : Pager α) (n : Nat) :
    stateAt m (fetchNext m s) n = stateAt m s (n + 1) := by
  induction n with
  | zero => rfl
  | succ n ih => simp [stateAt, ih]

theorem pagesRun_stop {α : Type} {m : ListRequest → ListResponse α}
    {s : Pager α} (h : s.response.next_page_token = "") (fuel : Nat) :
    pagesRun m s fuel = ⟨[s.response], [], s⟩ := by
  cases fuel <;> simp [pagesRun, pagesRunLoop, h]

theorem pagesRun_cons {α : Type} {m : ListRequest → ListResponse α}
    {s : Pager α} (h : ¬ s.response.next_page_token = "") (fuel : Nat) :
    pagesRun m s (fuel + 1) =
      ⟨s.response :: (pagesRun m (fetchNext m s) fuel).pages,
       (fetchNext m s).request :: (pagesRun m (fetchNext m s) fuel).calls,
       (pagesRun m (fetchNext m s) fuel).final⟩ := by
  simp [pagesRun, pagesRunLoop, h]

theorem pagesRun_pages_get {α : Type} (m : ListRequest → ListResponse α) :
    ∀ (n : Nat) (s : Pager α) (fuel : Nat), n ≤ fuel →
      (∀ j, j < n → (stateAt m s j).response.next_page_token ≠ "") →
      (pagesRun m s fuel).pages[n]? = some (stateAt m s n).response
  | 0, s, fuel, _, _ => by simp [pagesRun, stateAt]
  | n + 1, s, fuel + 1, hn, hy => by
    have htok : ¬ s.response.next_page_token = "" := hy 0 (Nat.succ_pos n)
    rw [pagesRun_cons htok]
    have ih := pagesRun_pages_get m n (fetchNext m s) fuel
      (Nat.le_of_succ_le_succ hn)
      (fun j hj => by
        rw [stateAt_shift]
        exact hy (j + 1) (Nat.succ_lt_succ hj))
    simpa [stateAt_shift] using ih

theorem pagesRunLoop_calls_get {α : Type} (m : ListRequest → ListResponse α) :
    ∀ (fuel : Nat) (s : Pager α) (i : Nat) (req : ListRequest),
      (pagesRunLoop m s fuel).calls[i]? = some req →
      req = (stateAt m s (i + 1)).request
  | 0, s, i, req => by simp [pagesRunLoop]
  | fuel + 1, s, i, req => by
    by_cases htok : s.response.next_page_token = ""
    · simp [pagesRunLoop, htok]
    · simp only [pagesRunLoop, if_neg htok]
      cases i with
      | zero =>
        intro h
        simp at h
        simp [← h, stateAt, stateAt_shift]
      | succ j =>
        intro h
        simp at h
        have := pagesRunLoop_calls_get m fuel (fetchNext m s) j req h
        rw [this, stateAt_shift]

theorem pagesRunLoop_final {α : Type} (m : ListRequest → ListResponse α) :
    ∀ (fuel : Nat) (s : Pager α),
      (pagesRunLoop m s fuel).final
        = stateAt m s (pagesRunLoop m s fuel).calls.length
  | 0, s => rfl
  | fuel + 1, s => by
    by_cases htok : s.response.next_page_token = ""
    · simp [pagesRunLoop, htok, stateAt]
    · simp only [pagesRunLoop, if_neg htok, List.length_cons]
      rw [pagesRunLoop_final m fuel (fetchNext m s), stateAt_shift]

theorem iterConcat_eq_join {α : Type} :
    ∀ ps : List (ListResponse α),
      iterConcat ps = (ps.map ListResponse.items).flatten
  | [] => rfl
  | p :: ps => by simp [iterConcat, iterConcat_eq_join ps]

/-- Claim C1: a full traversal of `pages` first yields the construction-time
response; thereafter, while the latest response's `next_page_token` is
non-empty, it sets the retained request's `page_token` to exactly that token,
invokes `method` on that request, replaces the retained response with the
result and yields it; at every invoker call the request's `page_token` equals
the `next_page_token` of the immediately preceding response. -/
theorem c1_pages_traversal {α : Type} (m : ListRequest → ListResponse α)
    (s0 : Pager α) (fuel n : Nat) (hn : n ≤ fuel)
    (hy : ∀ j, j < n → (stateAt m s0 j).response.next_page_token ≠ "") :
    (pagesRun m s0 fuel).pages[0]? = some s0.response
    ∧ (pagesRun m s0 fuel).pages[n]? = some (stateAt m s0 n).response
    ∧ (∀ k, (stateAt m s0 (k + 1)).request.page_token
          = (stateAt m s0 k).response.next_page_token)
    ∧ (∀ k, (stateAt m s0 (k + 1)).response
          = m ((stateAt m s0 (k + 1)).request))
    ∧ (∀ i req, (pagesRun m s0 fuel).calls[i]? = some req →
          req = (stateAt m s0 (i + 1)).request
          ∧ req.page_token = (stateAt m s0 i).response.next_page_token) := by
  refine ⟨?_, pagesRun_pages_get m n s0 fuel hn hy, fun k => rfl, fun k => rfl, ?_⟩
  · exact pagesRun_pages_get m 0 s0 fuel (Nat.zero_le fuel) (by intro j hj; omega)
  · intro i req h
    have h' : (pagesRunLoop m s0 fuel).calls[i]? = some req := h
    have := pagesRunLoop_calls_get m fuel s0 i req h'
    exact ⟨this, by rw [this]; exact rfl⟩

def reqW : ListRequest :=
  { parent := "projects/p/locations/l", filter := "", page_size := 10,
    page_token := "" }

def pageW1 : ListResponse Endpoint :=
  { items := [{ name := "e1" }, { name := "e2" }], next_page_token := "abc" }

def pageW2 : ListResponse Endpoint :=
  { items := [{ name := "e3" }], next_page_token := "" }

def methodW : ListRequest → ListResponse Endpoint :=
  fun r => if r.page_token = "abc" then pageW2
           else { items := [], next_page_token := "bad" }

theorem c1_pages_traversal_witness :
    (pagesRun methodW (mkPager reqW pageW1) 3).pages[1]? = some pageW2
    ∧ (stateAt methodW (mkPager reqW pageW1) 1).request.page_token = "abc" := by
  have h := c1_pages_traversal methodW (mkPager reqW pageW1) 3 1 (by decide)
    (by decide)
  exact ⟨by rw [h.2.1]; decide, by rw [h.2.2.1 0]; decide⟩

/-- Claim C2: the flattened item sequence produced by iterating the pager
equals the in-order concatenation of the item field of each page of the
`pages` traversal, and iterating items issues exactly the fetches of the
underlying `pages` traversal, no more. -/
theorem c2_iter_flattens {α : Type} (m : ListRequest → ListResponse α)
    (s0 : Pager α) (fuel : Nat) :
    (iterRun m s0 fuel).1
      = ((pagesRun m s0 fuel).pages.map ListResponse.items).flatten
    ∧ (iterRun m s0 fuel).2 = (pagesRun m s0 fuel).calls :=
  ⟨iterConcat_eq_join (pagesRun m s0 fuel).pages, rfl⟩

/-- Claim C3: for a pager whose initial response carries an empty
`next_page_token` and N items, iteration yields exactly those N items in
order, and the method callable is never invoked (the call log is empty). -/
theorem c3_single_page {α : Type} (m : ListRequest → ListResponse α)
    (req : ListRequest) (resp : ListResponse α) (fuel : Nat)
    (h : resp.next_page_token = "") :
    (iterRun m (mkPager req resp) fuel).1 = resp.items
    ∧ (pagesRun m (mkPager req resp) fuel).calls = []
    ∧ (pagesRun m (mkPager req resp) fuel).pages = [resp] := by
  have hs : pagesRun m (mkPager req resp) fuel = ⟨[resp], [], mkPager req resp⟩ :=
    pagesRun_stop h fuel
  refine ⟨?_, ?_, ?_⟩
  · show iterConcat (pagesRun m (mkPager req resp) fuel).pages = resp.items
    rw [hs]
    simp [iterConcat]
  · rw [hs]
  · rw [hs]

theorem c3_single_page_witness :
    pageW2.next_page_token = ""
    ∧ (iterRun methodW (mkPager reqW pageW2) 5).1 = [⟨"e3"⟩]
    ∧ (pagesRun methodW (mkPager reqW pageW2) 5).calls = [] := by
  have h := c3_single_page methodW reqW pageW2 5 (by decide)
  exact ⟨by decide, by rw [h.1]; decide, h.2.1⟩

/-- Claim C4: attribute lookups not satisfied by the pager's own surface are
forwarded to the currently retained response: before any fetch they resolve
against the initial response, and after `k` fetches against the most recently
fetched response; after a `pages` traversal the retained state is the one
reached by as many fetch steps as there were invoker calls. -/
theorem c4_getattr_forwarding {α β : Type} (m : ListRequest → ListResponse α)
    (s0 : Pager α) (f : ListResponse α → β) :
    pagerGetattr s0 f = f s0.response
    ∧ (∀ k, pagerGetattr (stateAt m s0 k) f = f (stateAt m s0 k).response)
    ∧ (∀ k, pagerGetattr (stateAt m s0 (k + 1)) f
          = f (m ((stateAt m s0 (k + 1)).request)))
    ∧ (∀ fuel, (pagesRun m s0 fuel).final
          = stateAt m s0 ((pagesRun m s0 fuel).calls.length)) := by
  refine ⟨rfl, fun k => rfl, fun k => rfl, fun fuel => ?_⟩
  exact pagesRunLoop_final m fuel s0

/-- The `pages` loop with a fallible invoker (pagers.py lines 71-74, where
`self._method(self._request)` may raise): yields pages until the invoker
raises, then stops and propagates the error.  Returns the yielded pages, the
issued requests, and the propagated error if any. -/
def pagesRunLoopE {ε α : Type} (me : ListRequest → Except ε (ListResponse α)) :
    Pager α → Nat → List (ListResponse α) × List ListRequest × Option ε
  | s, 0 => ([], [], none)
  | s, fuel + 1 =>
    if s.response.next_page_token = "" then ([], [], none)
    else
      let req := { s.request with page_token := s.response.next_page_token }
      match me req with
      | Except.error e => ([], [req], some e)
      | Except.ok resp =>
        let r := pagesRunLoopE me ⟨req, resp⟩ fuel
        (resp :: r.1, req :: r.2.1, r.2.2)

/-- The whole `pages` generator with a fallible invoker: the initial yield
cannot fail (no I/O happens before it). -/
def pagesRunE {ε α : Type} (me : ListRequest → Except ε (ListResponse α))
    (s : Pager α) (fuel : Nat) :
    List (ListResponse α) × List ListRequest × Option ε :=
  let r := pagesRunLoopE me s fuel
  (s.response :: r.1, r.2.1, r.2.2)

theorem map_range_succ_cons {β : Type} (f : Nat → β) (k : Nat) :
    List.map f (List.range (k + 1))
      = f 0 :: List.map (fun j => f (j + 1)) (List.range k) := by
  rw [List.range_succ_eq_map, List.map_cons, List.map_map]
  rfl

theorem pagesRunLoopE_fail {ε α : Type} (m : ListRequest → ListResponse α)
    (me : ListRequest → Except ε (ListResponse α)) (e : ε) :
    ∀ (k : Nat) (s : Pager α) (fuel : Nat), k < fuel →
      (∀ j, j < k + 1 → (stateAt m s j).response.next_page_token ≠ "") →
      (∀ j, 1 ≤ j → j ≤ k →
        me ((stateAt m s j).request) = Except.ok ((stateAt m s j).response)) →
      me ((stateAt m s (k + 1)).request) = Except.error e →
      pagesRunLoopE me s fuel
        = ((List.range k).map (fun j => (stateAt m s (j + 1)).response),
           (List.range (k + 1)).map (fun j => (stateAt m s (j + 1)).request),
           some e)
  | 0, s, fuel + 1, _, htok, _, hfail => by
    have h0 : ¬ s.response.next_page_token = "" := htok 0 (by omega)
    have hreq : ({ s.request with
        page_token := s.response.next_page_token } : ListRequest)
        = (stateAt m s 1).request := rfl
    simp only [pagesRunLoopE, if_neg h0, hreq, hfail]
    simp [List.range_succ]
  | k + 1, s, fuel + 1, hfuel, htok, hok, hfail => by
    have h0 : ¬ s.response.next_page_token = "" := htok 0 (by omega)
    have hreq : ({ s.request with
        page_token := s.response.next_page_token } : ListRequest)
        = (stateAt m s 1).request := rfl
    have hok1 : me ((stateAt m s 1).request)
        = Except.ok ((stateAt m s 1).response) := hok 1 (by omega) (by omega)
    have hstep : (⟨(stateAt m s 1).request, (stateAt m s 1).response⟩ : Pager α)
        = fetchNext m s := rfl
    have ih := pagesRunLoopE_fail m me e k (fetchNext m s) fuel (by omega)
      (fun j hj => by rw [stateAt_shift]; exact htok (j + 1) (by omega))
      (fun j hj1 hjk => by
        rw [stateAt_shift]
        exact hok (j + 1) (by omega) (by omega))
      (by rw [stateAt_shift]; exact hfail)
    simp only [pagesRunLoopE, if_neg h0, hreq, hok1, hstep, ih]
    rw [map_range_succ_cons (fun j => (stateAt m s (j + 1)).response) k,
        map_range_succ_cons (fun j => (stateAt m s (j + 1)).request) (k + 1)]
    simp [stateAt_shift]

/-- Claim C5: when the invoker raises on the k-th follow-up fetch (having
succeeded on the first k-1), traversing `pages` yields exactly the initial
page plus the k-1 successfully fetched pages, then propagates that same error
unchanged; no partial page is yielded and no retry is attempted (the failing
request is issued exactly once, as the last entry of the call log). -/
theorem c5_error_propagation {ε α : Type} (m : ListRequest → ListResponse α)
    (me : ListRequest → Except ε (ListResponse α)) (s0 : Pager α)
    (k fuel : Nat) (e : ε) (hk : 1 ≤ k) (hfuel : k ≤ fuel)
    (htok : ∀ j, j < k → (stateAt m s0 j).response.next_page_token ≠ "")
    (hok : ∀ j, 1 ≤ j → j < k →
      me ((stateAt m s0 j).request) = Except.ok ((stateAt m s0 j).response))
    (hfail : me ((stateAt m s0 k).request) = Except.error e) :
    pagesRunE me s0 fuel
      = ((List.range k).map (fun j => (stateAt m s0 j).response),
         (List.range k).map (fun j => (stateAt m s0 (j + 1)).request),
         some e) := by
  obtain ⟨k', rfl⟩ : ∃ k', k = k' + 1 := ⟨k - 1, by omega⟩
  have hloop := pagesRunLoopE_fail m me e k' s0 fuel (by omega)
    (fun j hj => htok j (by omega))
    (fun j hj1 hjk => hok j hj1 (by omega))
    hfail
  show (s0.response :: (pagesRunLoopE me s0 fuel).1,
        (pagesRunLoopE me s0 fuel).2.1, (pagesRunLoopE me s0 fuel).2.2) = _
  rw [hloop]
  rw [map_range_succ_cons (fun j => (stateAt m s0 j).response) k']
  simp [stateAt]

def methodE : ListRequest → Except String (ListResponse Endpoint) :=
  fun r => if r.page_token = "abc" then Except.error "boom"
           else Except.ok { items := [], next_page_token := "zzz" }

theorem c5_error_propagation_witness :
    pagesRunE methodE (mkPager reqW pageW1) 6
      = ([pageW1],
         [{ parent := "projects/p/locations/l", filter := "", page_size := 10,
            page_token := "abc" }],
         some "boom") := by
  have h := c5_error_propagation methodW methodE (mkPager reqW pageW1) 1 6
    "boom" (by omega) (by omega) (by decide) (by omega) (by rfl)
  rw [h]
  decide

theorem pagesRunLoop_len_unbounded {α : Type}
    (m : ListRequest → ListResponse α)
    (hm : ∀ r, (m r).next_page_token ≠ "") :
    ∀ (fuel : Nat) (s : Pager α), s.response.next_page_token ≠ "" →
      (pagesRunLoop m s fuel).pages.length = fuel
  | 0, s, _ => rfl
  | fuel + 1, s, hs => by
    simp only [pagesRunLoop, if_neg hs]
    have hnext : (fetchNext m s).response.next_page_token ≠ "" := hm _
    simp [pagesRunLoop_len_unbounded m hm fuel (fetchNext m s) hnext]

theorem pagesRunLoop_stab {α : Type} (m : ListRequest → ListResponse α) :
    ∀ (k : Nat) (s : Pager α),
      (stateAt m s k).response.next_page_token = "" →
      ∀ fuel, k ≤ fuel → pagesRunLoop m s fuel = pagesRunLoop m s k
  | 0, s, h, fuel, _ => by
    have h' : s.response.next_page_token = "" := h
    cases fuel with
    | zero => rfl
    | succ f => simp [pagesRunLoop, h']
  | k + 1, s, h, fuel, hf => by
    by_cases hs : s.response.next_page_token = ""
    · cases fuel with
      | zero => omega
      | succ f => simp [pagesRunLoop, hs]
    · cases fuel with
      | zero => omega
      | succ f =>
        simp only [pagesRunLoop, if_neg hs]
        have hsh : (stateAt m (fetchNext m s) k).response.next_page_token = "" := by
          rw [stateAt_shift]; exact h
        rw [pagesRunLoop_stab m k (fetchNext m s) hsh f (by omega)]

/-- Claim C8: the `pages` traversal terminates exactly on an empty
`next_page_token` and no maximum page count is enforced: if every invoker
response carries a non-empty token (and so does the initial response), the
page sequence is unbounded (every fuel bound is saturated, one page per loop
iteration plus the initial one); if the token chain reaches an empty token
after finitely many fetches, the traversal is finite (it stabilises: more
fuel yields nothing further). -/
theorem c8_termination {α : Type} (m : ListRequest → ListResponse α)
    (s0 : Pager α) :
    ((∀ r, (m r).next_page_token ≠ "") → s0.response.next_page_token ≠ "" →
      ∀ fuel, (pagesRun m s0 fuel).pages.length = fuel + 1)
    ∧ (∀ k, (stateAt m s0 k).response.next_page_token = "" →
        ∀ fuel, k ≤ fuel → pagesRun m s0 fuel = pagesRun m s0 k) := by
  constructor
  · intro hm hs fuel
    show ((s0.response :: (pagesRunLoop m s0 fuel).pages : List _)).length = fuel + 1
    rw [List.length_cons, pagesRunLoop_len_unbounded m hm fuel s0 hs]
  · intro k hk fuel hf
    show (⟨s0.response :: (pagesRunLoop m s0 fuel).pages,
          (pagesRunLoop m s0 fuel).calls, (pagesRunLoop m s0 fuel).final⟩
            : RunResult α) = _
    rw [pagesRunLoop_stab m k s0 hk fuel hf]
    rfl

def methodInf : ListRequest → ListResponse Endpoint :=
  fun _ => { items := [{ name := "x" }], next_page_token := "more" }

theorem c8_termination_witness :
    (pagesRun methodInf (mkPager reqW pageW1) 4).pages.length = 5
    ∧ pagesRun methodW (mkPager reqW pageW1) 7
        = pagesRun methodW (mkPager reqW pageW1) 1 := by
  refine ⟨(c8_termination methodInf (mkPager reqW pageW1)).1 ?_ (by decide) 4,
    (c8_termination methodW (mkPager reqW pageW1)).2 1 (by decide) 7 (by omega)⟩
  intro r
  simp [methodInf]

/-- Claim C9 (implicit): each access to the `pages` property starts a new
generator from the pager's currently retained state, not from the
construction-time one: after the pager's state has advanced by k fetches, a
traversal of `pages` begins at the (k+1)-th response, and a full traversal
from the initial state is exactly the k consumed pages followed by that
second traversal. -/
theorem c9_pages_restart {α : Type} (m : ListRequest → ListResponse α)
    (s0 : Pager α) (k fuel : Nat)
    (hy : ∀ j, j < k → (stateAt m s0 j).response.next_page_token ≠ "") :
    (pagesRun m s0 (k + fuel)).pages
      = ((List.range k).map (fun j => (stateAt m s0 j).response))
        ++ (pagesRun m (stateAt m s0 k) fuel).pages
    ∧ (pagesRun m (stateAt m s0 k) fuel).pages[0]?
        = some (stateAt m s0 k).response := by
  refine ⟨?_, by simp [pagesRun]⟩
  induction k generalizing s0 with
  | zero => simp [stateAt]
  | succ k ih =>
    have htok : ¬ s0.response.next_page_token = "" := hy 0 (Nat.succ_pos k)
    have hkf : k + 1 + fuel = (k + fuel) + 1 := by omega
    rw [hkf, pagesRun_cons htok]
    have ih' := ih (fetchNext m s0)
      (fun j hj => by
        rw [stateAt_shift]
        exact hy (j + 1) (by omega))
    rw [ih', map_range_succ_cons (fun j => (stateAt m s0 j).response) k]
    simp [stateAt_shift, stateAt]

theorem c9_pages_restart_witness :
    (pagesRun methodW (mkPager reqW pageW1) 4).pages
      = pageW1 :: (pagesRun methodW
          (stateAt methodW (mkPager reqW pageW1) 1) 3).pages
    ∧ (pagesRun methodW (stateAt methodW (mkPager reqW pageW1) 1) 3).pages[0]?
        = some pageW2 := by
  have h := c9_pages_restart methodW (mkPager reqW pageW1) 1 3 (by decide)
  constructor
  · have h1 := h.1
    simpa [stateAt] using h1
  · rw [h.2]; decide

theorem copyRequest_eq (r : ListRequest) : copyRequest r = r := rfl

/-- The default value read from an unallocated heap cell (never reached in
the claims below; it only totalises `Heap.read`). -/
def emptyRequest : ListRequest :=
  { parent := "", filter := "", page_size := 0, page_token := "" }

/-- A minimal heap of request objects.  Python attribute assignments like
`self._request = ...` store object references; the heap makes object identity
(and hence the aliasing behaviour of the constructor's copy) expressible: a
reference is an index into the heap. -/
structure Heap where
  cells : List ListRequest
deriving DecidableEq, Repr

def Heap.read (h : Heap) (i : Nat) : ListRequest :=
  (h.cells[i]?).getD emptyRequest

def Heap.write (h : Heap) (i : Nat) (r : ListRequest) : Heap :=
  ⟨h.cells.set i r⟩

/-- A pager whose `_request` attribute is an object reference into the heap. -/
structure PagerRef (α : Type) where
  requestRef : Nat
  response : ListResponse α
deriving DecidableEq, Repr

/-- The heap-aware constructor (pagers.py lines 61-63):
`self._request = ListEndpointsRequest(request)` allocates a fresh request
object whose fields copy the caller's request; the caller's own object is
left untouched and the pager holds the new reference. -/
def mkPagerRef {α : Type} (h : Heap) (callerRef : Nat)
    (response : ListResponse α) : Heap × PagerRef α :=
  let copy := copyRequest (h.read callerRef)
  (⟨h.cells ++ [copy]⟩,
   { requestRef := h.cells.length, response := response })

/-- One loop-body iteration of `pages`, heap-aware (pagers.py lines 72-73):
mutates the pager-owned request object in place (only its `page_token`
field), then invokes `method` on that object and replaces the retained
response. -/
def fetchNextRef {α : Type} (m : ListRequest → ListResponse α)
    (h : Heap) (p : PagerRef α) : Heap × PagerRef α :=
  let req := { h.read p.requestRef with
    page_token := p.response.next_page_token }
  (h.write p.requestRef req, { p with response := m req })

/-- The heap-aware pager state after `n` executions of the loop body. -/
def stateAtRef {α : Type} (m : ListRequest → ListResponse α)
    (hp : Heap × PagerRef α) : Nat → Heap × PagerRef α
  | 0 => hp
  | n + 1 => fetchNextRef m (stateAtRef m hp n).1 (stateAtRef m hp n).2

theorem fetchNextRef_eq {α : Type} (m : ListRequest → ListResponse α)
    (h : Heap) (p : PagerRef α) :
    fetchNextRef m h p
      = (h.write p.requestRef
          { h.read p.requestRef with
            page_token := p.response.next_page_token },
         ⟨p.requestRef,
          m { h.read p.requestRef with
              page_token := p.response.next_page_token }⟩) := rfl

theorem Heap.read_write_self (h : Heap) (i : Nat) (r : ListRequest)
    (hv : i < h.cells.length) : (h.write i r).read i = r := by
  show ((h.cells.set i r)[i]?).getD emptyRequest = r
  rw [List.getElem?_set_eq_of_lt r hv]
  rfl

theorem Heap.read_write_ne (h : Heap) (i j : Nat) (r : ListRequest)
    (hne : j ≠ i) : (h.write i r).read j = h.read j := by
  show ((h.cells.set i r)[j]?).getD emptyRequest
    = (h.cells[j]?).getD emptyRequest
  rw [List.getElem?_set_ne (Ne.symm hne)]

theorem Heap.length_write (h : Heap) (i : Nat) (r : ListRequest) :
    (h.write i r).cells.length = h.cells.length := by
  show (h.cells.set i r).length = h.cells.length
  exact List.length_set h.cells i r

theorem Heap.read_alloc_self (h : Heap) (r : ListRequest) :
    (Heap.mk (h.cells ++ [r])).read h.cells.length = r := by
  show ((h.cells ++ [r])[h.cells.length]?).getD emptyRequest = r
  simp

theorem Heap.read_alloc_old (h : Heap) (r : ListRequest) (i : Nat)
    (hv : i < h.cells.length) :
    (Heap.mk (h.cells ++ [r])).read i = h.read i := by
  show ((h.cells ++ [r])[i]?).getD emptyRequest = (h.cells[i]?).getD emptyRequest
  rw [List.getElem?_append_left hv]

theorem stateAtRef_requestRef {α : Type} (m : ListRequest → ListResponse α) :
    ∀ (n : Nat) (h : Heap) (p : PagerRef α),
      (stateAtRef m (h, p) n).2.requestRef = p.requestRef
  | 0, _, _ => rfl
  | n + 1, h, p => stateAtRef_requestRef m n h p

theorem fetchNextRef_frame {α : Type} (m : ListRequest → ListResponse α)
    (h : Heap) (p : PagerRef α) (i : Nat) (hne : i ≠ p.requestRef) :
    (fetchNextRef m h p).1.read i = h.read i := by
  rw [fetchNextRef_eq]
  exact Heap.read_write_ne h p.requestRef i _ hne

theorem stateAtRef_frame {α : Type} (m : ListRequest → ListResponse α) :
    ∀ (n : Nat) (h : Heap) (p : PagerRef α) (i : Nat), i ≠ p.requestRef →
      (stateAtRef m (h, p) n).1.read i = h.read i
  | 0, _, _, _, _ => rfl
  | n + 1, h, p, i, hne => by
    have hi' : i ≠ (stateAtRef m (h, p) n).2.requestRef := by
      rw [stateAtRef_requestRef]; exact hne
    calc (stateAtRef m (h, p) (n + 1)).1.read i
        = (stateAtRef m (h, p) n).1.read i :=
          fetchNextRef_frame m _ _ i hi'
      _ = h.read i := stateAtRef_frame m n h p i hne

theorem stateAtRef_sim {α : Type} (m : ListRequest → ListResponse α) :
    ∀ (n : Nat) (h : Heap) (p : PagerRef α), p.requestRef < h.cells.length →
      (stateAtRef m (h, p) n).1.cells.length = h.cells.length
      ∧ (stateAtRef m (h, p) n).1.read p.requestRef
          = (stateAt m ⟨h.read p.requestRef, p.response⟩ n).request
      ∧ (stateAtRef m (h, p) n).2.response
          = (stateAt m ⟨h.read p.requestRef, p.response⟩ n).response
  | 0, _, _, _ => ⟨rfl, rfl, rfl⟩
  | n + 1, h, p, hv => by
    obtain ⟨h2, h3, h4⟩ := stateAtRef_sim m n h p hv
    have hr := stateAtRef_requestRef m n h p
    have hv' : (stateAtRef m (h, p) n).2.requestRef
        < (stateAtRef m (h, p) n).1.cells.length := by
      rw [hr, h2]; exact hv
    simp only [stateAtRef, fetchNextRef_eq]
    refine ⟨?_, ?_, ?_⟩
    · rw [Heap.length_write]; exact h2
    · rw [hr, Heap.read_write_self _ _ _ (by rw [h2]; exact hv), h3, h4]
      rfl
    · show m _ = _
      rw [hr, h3, h4]
      rfl

theorem stateAt_request_frame {α : Type} (m : ListRequest → ListResponse α)
    (s0 : Pager α) :
    ∀ n, (stateAt m s0 n).request.parent = s0.request.parent
      ∧ (stateAt m s0 n).request.filter = s0.request.filter
      ∧ (stateAt m s0 n).request.page_size = s0.request.page_size
  | 0 => ⟨rfl, rfl, rfl⟩
  | n + 1 => stateAt_request_frame m s0 n

/-- Claim C6: the constructor copies the supplied request into pager-owned
storage: the pager's reference is distinct from the caller's; overwriting the
caller's object after construction changes neither the pager's responses nor
the pager-owned request object it passes to `method`; the fetch loop never
writes to the caller's object; and the pager-owned request is mutated only on
its `page_token` field (its other fields always equal the caller's original
field values). -/
theorem c6_request_copy {α : Type} (m : ListRequest → ListResponse α)
    (h : Heap) (callerRef : Nat) (resp : ListResponse α)
    (hv : callerRef < h.cells.length) :
    ((mkPagerRef h callerRef resp).2.requestRef ≠ callerRef)
    ∧ (∀ v n,
        (stateAtRef m ((mkPagerRef h callerRef resp).1.write callerRef v,
            (mkPagerRef h callerRef resp).2) n).2.response
          = (stateAtRef m (mkPagerRef h callerRef resp) n).2.response
        ∧ (stateAtRef m ((mkPagerRef h callerRef resp).1.write callerRef v,
            (mkPagerRef h callerRef resp).2) n).1.read
              (mkPagerRef h callerRef resp).2.requestRef
          = (stateAtRef m (mkPagerRef h callerRef resp) n).1.read
              (mkPagerRef h callerRef resp).2.requestRef)
    ∧ (∀ n,
        ((stateAtRef m (mkPagerRef h callerRef resp) n).1.read
            (mkPagerRef h callerRef resp).2.requestRef).parent
          = (h.read callerRef).parent
        ∧ ((stateAtRef m (mkPagerRef h callerRef resp) n).1.read
            (mkPagerRef h callerRef resp).2.requestRef).filter
          = (h.read callerRef).filter
        ∧ ((stateAtRef m (mkPagerRef h callerRef resp) n).1.read
            (mkPagerRef h callerRef resp).2.requestRef).page_size
          = (h.read callerRef).page_size)
    ∧ (∀ n, (stateAtRef m (mkPagerRef h callerRef resp) n).1.read callerRef
          = h.read callerRef) := by
  have hne : (mkPagerRef h callerRef resp).2.requestRef ≠ callerRef := by
    show h.cells.length ≠ callerRef
    omega
  have hread : (mkPagerRef h callerRef resp).1.read
      (mkPagerRef h callerRef resp).2.requestRef
        = copyRequest (h.read callerRef) :=
    Heap.read_alloc_self h (copyRequest (h.read callerRef))
  have hlen : (mkPagerRef h callerRef resp).1.cells.length
      = h.cells.length + 1 := by
    show (h.cells ++ [copyRequest (h.read callerRef)]).length = _
    simp
  have hvp : (mkPagerRef h callerRef resp).2.requestRef
      < (mkPagerRef h callerRef resp).1.cells.length := by
    show h.cells.length < (mkPagerRef h callerRef resp).1.cells.length
    omega
  refine ⟨hne, ?_, ?_, ?_⟩
  · intro v n
    have hvp' : (mkPagerRef h callerRef resp).2.requestRef
        < ((mkPagerRef h callerRef resp).1.write callerRef v).cells.length := by
      rw [Heap.length_write]; exact hvp
    have hrd : ((mkPagerRef h callerRef resp).1.write callerRef v).read
        (mkPagerRef h callerRef resp).2.requestRef
          = (mkPagerRef h callerRef resp).1.read
              (mkPagerRef h callerRef resp).2.requestRef :=
      Heap.read_write_ne _ _ _ _ hne
    obtain ⟨_, s3, s4⟩ := stateAtRef_sim m n
      ((mkPagerRef h callerRef resp).1.write callerRef v)
      (mkPagerRef h callerRef resp).2 hvp'
    obtain ⟨_, t3, t4⟩ := stateAtRef_sim m n (mkPagerRef h callerRef resp).1
      (mkPagerRef h callerRef resp).2 hvp
    constructor
    · rw [s4, t4, hrd]
    · rw [s3, t3, hrd]
  · intro n
    obtain ⟨_, t3, _⟩ := stateAtRef_sim m n (mkPagerRef h callerRef resp).1
      (mkPagerRef h callerRef resp).2 hvp
    rw [t3, hread]
    exact stateAt_request_frame m _ n
  · intro n
    have hfr := stateAtRef_frame m n (mkPagerRef h callerRef resp).1
      (mkPagerRef h callerRef resp).2 callerRef (Ne.symm hne)
    have hro : (mkPagerRef h callerRef resp).1.read callerRef
        = h.read callerRef :=
      Heap.read_alloc_old h (copyRequest (h.read callerRef)) callerRef hv
    exact hfr.trans hro

def heapW : Heap := ⟨[reqW]⟩

def vW : ListRequest :=
  { parent := "MUTATED", filter := "x", page_size := 1, page_token := "zzz" }

theorem c6_request_copy_witness :
    ((mkPagerRef heapW 0 pageW1).2.requestRef ≠ 0)
    ∧ (stateAtRef methodW ((mkPagerRef heapW 0 pageW1).1.write 0 vW,
        (mkPagerRef heapW 0 pageW1).2) 2).2.response
        = (stateAtRef methodW (mkPagerRef heapW 0 pageW1) 2).2.response
    ∧ ((stateAtRef methodW (mkPagerRef heapW 0 pageW1) 2).1.read
        (mkPagerRef heapW 0 pageW1).2.requestRef).parent
        = (heapW.read 0).parent
    ∧ (stateAtRef methodW (mkPagerRef heapW 0 pageW1) 2).1.read 0
        = heapW.read 0 := by
  have h := c6_request_copy methodW heapW 0 pageW1 (by decide)
  exact ⟨h.1, (h.2.1 vW 2).1, (h.2.2.1 2).1, h.2.2.2 2⟩

/-- Claim C7: with a deterministic invoker (a pure function), two fresh
pagers constructed from the same method, the same request field values (in
possibly different heaps, from different request objects) and the same
initial response yield identical page sequences when each is traversed
once. -/
theorem c7_deterministic_replay {α : Type} (m : ListRequest → ListResponse α)
    (h1 h2 : Heap) (i1 i2 : Nat) (resp : ListResponse α) (fuel : Nat)
    (hv1 : i1 < h1.cells.length) (hv2 : i2 < h2.cells.length)
    (heq : h1.read i1 = h2.read i2) :
    (∀ n, (stateAtRef m (mkPagerRef h1 i1 resp) n).2.response
        = (stateAtRef m (mkPagerRef h2 i2 resp) n).2.response)
    ∧ pagesRun m (mkPager (h1.read i1) resp) fuel
        = pagesRun m (mkPager (h2.read i2) resp) fuel := by
  constructor
  · intro n
    have hvp1 : (mkPagerRef h1 i1 resp).2.requestRef
        < (mkPagerRef h1 i1 resp).1.cells.length := by
      show h1.cells.length < (h1.cells ++ [copyRequest (h1.read i1)]).length
      simp
    have hvp2 : (mkPagerRef h2 i2 resp).2.requestRef
        < (mkPagerRef h2 i2 resp).1.cells.length := by
      show h2.cells.length < (h2.cells ++ [copyRequest (h2.read i2)]).length
      simp
    obtain ⟨_, _, s4⟩ := stateAtRef_sim m n (mkPagerRef h1 i1 resp).1
      (mkPagerRef h1 i1 resp).2 hvp1
    obtain ⟨_, _, t4⟩ := stateAtRef_sim m n (mkPagerRef h2 i2 resp).1
      (mkPagerRef h2 i2 resp).2 hvp2
    have hra1 : (mkPagerRef h1 i1 resp).1.read
        (mkPagerRef h1 i1 resp).2.requestRef = h1.read i1 :=
      Heap.read_alloc_self h1 (copyRequest (h1.read i1))
    have hra2 : (mkPagerRef h2 i2 resp).1.read
        (mkPagerRef h2 i2 resp).2.requestRef = h2.read i2 :=
      Heap.read_alloc_self h2 (copyRequest (h2.read i2))
    rw [s4, t4, hra1, hra2, heq]
    rfl
  · rw [heq]

theorem c7_deterministic_replay_witness :
    (stateAtRef methodW (mkPagerRef ⟨[reqW, vW]⟩ 0 pageW1) 1).2.response
      = (stateAtRef methodW (mkPagerRef ⟨[reqW]⟩ 0 pageW1) 1).2.response
    ∧ pagesRun methodW (mkPager ((⟨[reqW, vW]⟩ : Heap).read 0) pageW1) 2
      = pagesRun methodW (mkPager ((⟨[reqW]⟩ : Heap).read 0) pageW1) 2 := by
  have h := c7_deterministic_replay methodW ⟨[reqW, vW]⟩ ⟨[reqW]⟩ 0 0 pageW1 2
    (by decide) (by decide) (by decide)
  exact ⟨h.1 1, h.2⟩

/-- Modelled from the spec: an opaque credentials object (credential
resolution is delegated to underlying libraries and out of scope). -/
structure Credentials where
  credName : String
deriving DecidableEq, Repr

/-- The Python value held by `self._credentials`: `None`, `False` (grpc.py
lines 67-68 overwrite the argument with `False` when a channel is provided),
or an actual credentials object. -/
inductive PyCred where
  | pyNone : PyCred
  | pyFalse : PyCred
  | cred : Credentials → PyCred
deriving DecidableEq, Repr

/-- A gRPC channel, abstracted to the parameters it was created from; a
channel passed in at construction may be any value of this type. -/
structure Channel where
  chanHost : String
  chanCreds : PyCred
deriving DecidableEq, Repr

/-- A per-method stub, abstracted to the channel it was created on and the
RPC path (the serializer/deserializer pair is a fixed function of the
path). -/
structure Stub where
  stubChannel : Channel
  path : String
deriving DecidableEq, Repr

/-- `channel.unary_unary(path, ...)` (external gRPC collaborator): a stub
bound to this channel and path. -/
def Channel.unary_unary (ch : Channel) (path : String) : Stub :=
  { stubChannel := ch, path := path }

/-- `EndpointServiceGrpcTransport.create_channel` (grpc.py lines 78-100):
delegates to `grpc_helpers.create_channel(host, credentials=credentials,
scopes=cls.AUTH_SCOPES)`, abstracted as a channel determined by host and
credentials. -/
def create_channel (host : String) (credentials : PyCred) : Channel :=
  { chanHost := host, chanCreds := credentials }

/-- The transport's state: `_host` and `_credentials` as stored by the base
class constructor (base.py is not among the verified sources; modelled from
the spec's description of stub construction / credential plumbing as simple
storage, consistent with the uses `self._host` and `self._credentials` in
grpc.py lines 112-113), the cached channel (`hasattr(self, "_grpc_channel")`
is `isSome`), and the `_stubs` dict in insertion order. -/
structure EndpointServiceGrpcTransport where
  _host : String
  _credentials : PyCred
  _grpc_channel : Option Channel
  _stubs : List (String × Stub)
deriving DecidableEq, Repr

/-- `EndpointServiceGrpcTransport.__init__` (grpc.py lines 45-76): when a
channel is given (truthy), `credentials` is overwritten with `False` before
the base constructor stores it, and the channel is cached; `_stubs` starts
empty. -/
def transportInit (host : String) (credentials : PyCred)
    (channel : Option Channel) : EndpointServiceGrpcTransport :=
  let credentials' := if channel.isSome then PyCred.pyFalse else credentials
  { _host := host, _credentials := credentials',
    _grpc_channel := channel, _stubs := [] }

/-- The `grpc_channel` property (grpc.py lines 102-117): creates the channel
only if the cache attribute is absent, then returns the cached channel.
Returns the value together with the (possibly updated) transport state. -/
def grpc_channel (t : EndpointServiceGrpcTransport) :
    Channel × EndpointServiceGrpcTransport :=
  match t._grpc_channel with
  | some ch => (ch, t)
  | none =>
    let ch := create_channel t._host t._credentials
    (ch, { t with _grpc_channel := some ch })

/-- Dict membership/lookup on `self._stubs`. -/
def stubLookup (name : String) : List (String × Stub) → Option Stub
  | [] => none
  | kv :: rest => if kv.1 = name then some kv.2 else stubLookup name rest

/-- The common body of every per-method stub property (grpc.py lines
135-320): `if name not in self._stubs: self._stubs[name] =
self.grpc_channel.unary_unary(path, ...); return self._stubs[name]`. -/
def stubProperty (name path : String) (t : EndpointServiceGrpcTransport) :
    Stub × EndpointServiceGrpcTransport :=
  match stubLookup name t._stubs with
  | some st => (st, t)
  | none =>
    let ch := (grpc_channel t).1
    let t' := (grpc_channel t).2
    let st := ch.unary_unary path
    (st, { t' with _stubs := t'._stubs ++ [(name, st)] })

/-- The `list_endpoints` stub property (grpc.py lines 187-213). -/
def list_endpoints (t : EndpointServiceGrpcTransport) :
    Stub × EndpointServiceGrpcTransport :=
  stubProperty "list_endpoints"
    "/google.cloud.aiplatform.v1beta1.EndpointService/ListEndpoints" t

/-- The `create_endpoint` stub property (grpc.py lines 135-159). -/
def create_endpoint (t : EndpointServiceGrpcTransport) :
    Stub × EndpointServiceGrpcTransport :=
  stubProperty "create_endpoint"
    "/google.cloud.aiplatform.v1beta1.EndpointService/CreateEndpoint" t

/-- The `get_endpoint` stub property (grpc.py lines 161-185). -/
def get_endpoint (t : EndpointServiceGrpcTransport) :
    Stub × EndpointServiceGrpcTransport :=
  stubProperty "get_endpoint"
    "/google.cloud.aiplatform.v1beta1.EndpointService/GetEndpoint" t

/-- The `update_endpoint` stub property (grpc.py lines 215-239). -/
def update_endpoint (t : EndpointServiceGrpcTransport) :
    Stub × EndpointServiceGrpcTransport :=
  stubProperty "update_endpoint"
    "/google.cloud.aiplatform.v1beta1.EndpointService/UpdateEndpoint" t

/-- The `delete_endpoint` stub property (grpc.py lines 241-265). -/
def delete_endpoint (t : EndpointServiceGrpcTransport) :
    Stub × EndpointServiceGrpcTransport :=
  stubProperty "delete_endpoint"
    "/google.cloud.aiplatform.v1beta1.EndpointService/DeleteEndpoint" t

/-- The `deploy_model` stub property (grpc.py lines 267-292). -/
def deploy_model (t : EndpointServiceGrpcTransport) :
    Stub × EndpointServiceGrpcTransport :=
  stubProperty "deploy_model"
    "/google.cloud.aiplatform.v1beta1.EndpointService/DeployModel" t

/-- The `undeploy_model` stub property (grpc.py lines 294-320). -/
def undeploy_model (t : EndpointServiceGrpcTransport) :
    Stub × EndpointServiceGrpcTransport :=
  stubProperty "undeploy_model"
    "/google.cloud.aiplatform.v1beta1.EndpointService/UndeployModel" t

theorem grpc_channel_stubs (t : EndpointServiceGrpcTransport) :
    (grpc_channel t).2._stubs = t._stubs := by
  cases h : t._grpc_channel <;> simp [grpc_channel, h]

theorem grpc_channel_idem (t : EndpointServiceGrpcTransport) :
    grpc_channel (grpc_channel t).2 = ((grpc_channel t).1, (grpc_channel t).2) := by
  cases h : t._grpc_channel <;> simp [grpc_channel, h]

theorem stubLookup_append_self (name : String) (st : Stub) :
    ∀ l, stubLookup name l = none →
      stubLookup name (l ++ [(name, st)]) = some st
  | [], _ => by simp [stubLookup]
  | kv :: rest, h => by
    by_cases hk : kv.1 = name
    · simp [stubLookup, hk] at h
    · simp only [stubLookup, if_neg hk] at h
      simp only [List.cons_append, stubLookup, if_neg hk]
      exact stubLookup_append_self name st rest h

theorem stubProperty_idem (name path : String)
    (t : EndpointServiceGrpcTransport) :
    stubProperty name path (stubProperty name path t).2
      = ((stubProperty name path t).1, (stubProperty name path t).2) := by
  cases hs : stubLookup name t._stubs with
  | some st => simp [stubProperty, hs]
  | none =>
    have hs' : stubLookup name (grpc_channel t).2._stubs = none := by
      rw [grpc_channel_stubs]; exact hs
    simp only [stubProperty, hs']
    simp only [stubProperty, hs]
    rw [stubLookup_append_self name _ _ hs']

/-- Claim C10 (implicit): on every transport instance the `grpc_channel`
property and each per-method stub property (`list_endpoints` among them) are
idempotent: the channel and each stub are created at most once, and every
subsequent access returns the identical cached object with unchanged state;
moreover, when a channel is passed at construction, the credentials argument
is ignored (`False` is stored in its place) and that channel is the cached
one that `grpc_channel` returns. -/
theorem c10_transport_caching (t : EndpointServiceGrpcTransport)
    (name path host : String) (c : PyCred) (ch : Channel) :
    grpc_channel (grpc_channel t).2 = ((grpc_channel t).1, (grpc_channel t).2)
    ∧ stubProperty name path (stubProperty name path t).2
        = ((stubProperty name path t).1, (stubProperty name path t).2)
    ∧ list_endpoints (list_endpoints t).2
        = ((list_endpoints t).1, (list_endpoints t).2)
    ∧ (transportInit host c (some ch))._credentials = PyCred.pyFalse
    ∧ grpc_channel (transportInit host c (some ch))
        = (ch, transportInit host c (some ch)) :=
  ⟨grpc_channel_idem t, stubProperty_idem name path t,
   stubProperty_idem "list_endpoints"
     "/google.cloud.aiplatform.v1beta1.EndpointService/ListEndpoints" t,
   rfl, rfl⟩
